import Mathlib

/-! Contacts manager (`public/javascripts/app.js`).

A shallow embedding of the `Model`, `Controller` and `View` classes of the
contact manager, followed by the properties established about them.

JavaScript strings are embedded as `String`, arrays as `List`, objects with a
known shape as structures, thrown exceptions as `Except`, settled promises as
the value they settle with.  Browser built-ins the program calls but does not
define (`Number`, `String.prototype.toLowerCase`, `fetch`) are parameters.
-/

namespace ContactsManager

/-! ## JavaScript values -/

/-- The JavaScript values a property read on a cached contact can produce. -/
inductive JVal where
  | undefined
  | null
  | num (n : Int)
  | str (s : String)
  | arr (xs : List String)
  | obj
  deriving DecidableEq, Repr

/-- Strict inequality `a !== v` against a string `v`: only an equal string is
not different; arrays and objects are compared by identity and never equal a
string. -/
def strictNeStr (a : JVal) (v : String) : Bool :=
  match a with
  | .str s => s != v
  | _ => true

/-- An error object thrown by the runtime. -/
inductive JsError where
  | typeError
  deriving DecidableEq, Repr

/-- Splitting of a character list at every occurrence of `sep`
(`String.prototype.split` with a one-character separator): the empty input
gives one empty piece. -/
def splitOnChar (sep : Char) : List Char → List (List Char)
  | [] => [[]]
  | c :: cs =>
    if c = sep then [] :: splitOnChar sep cs
    else
      match splitOnChar sep cs with
      | [] => [[c]]
      | seg :: rest => (c :: seg) :: rest

/-- The call `s.split(sep)` for a one-character separator. -/
def jsSplit (s : String) (sep : Char) : List String :=
  (splitOnChar sep s.toList).map String.mk

/-- The call `xs.join(',')` on an array of strings. -/
def jsJoin (xs : List String) : String :=
  ",".intercalate xs

/-! ## Data model -/

/-- The `tags` property of a contact as the API sends it: missing, `null`, or
a comma-joined string. -/
inductive WireTags where
  | absent
  | null
  | str (s : String)
  deriving DecidableEq, Repr

/-- A contact object as parsed from the API response. -/
structure WireContact where
  id : Int
  full_name : String
  phone_number : String
  email : String
  tags : WireTags
  deriving DecidableEq, Repr

/-- The `tags` property of a contact held in `Model.contacts`. -/
inductive Tags where
  | absent
  | null
  | str (s : String)
  | arr (xs : List String)
  deriving DecidableEq, Repr

/-- A contact object held in `Model.contacts`. -/
structure Contact where
  id : Int
  full_name : String
  phone_number : String
  email : String
  tags : Tags
  deriving DecidableEq, Repr

/-- The value of `contact.tags`. -/
def Tags.toJVal : Tags → JVal
  | .absent => .undefined
  | .null => .null
  | .str s => .str s
  | .arr xs => .arr xs

/-- Names every object inherits from `Object.prototype`; reading one of them
on a contact yields a function or an object, never a string. -/
def objectPrototypeKeys : List String :=
  ["constructor", "__proto__", "hasOwnProperty", "isPrototypeOf",
   "propertyIsEnumerable", "toLocaleString", "toString", "valueOf",
   "__defineGetter__", "__defineSetter__", "__lookupGetter__", "__lookupSetter__"]

/-- The property read `contact[key]`. -/
def Contact.get (c : Contact) (key : String) : JVal :=
  if key = "id" then .num c.id
  else if key = "full_name" then .str c.full_name
  else if key = "phone_number" then .str c.phone_number
  else if key = "email" then .str c.email
  else if key = "tags" then c.tags.toJVal
  else if key ∈ objectPrototypeKeys then .obj
  else .undefined

/-- One iteration of the loop of `Model.processAPIData`:
`if (obj.tags) {obj.tags = obj.tags.split(',')}`. -/
def processAPIObject (obj : WireContact) : Contact :=
  { id := obj.id
    full_name := obj.full_name
    phone_number := obj.phone_number
    email := obj.email
    tags :=
      match obj.tags with
      | .absent => .absent
      | .null => .null
      | .str s => if s != "" then .arr (jsSplit s ',') else .str s }

/-- The method `Model.processAPIData`. -/
def processAPIData (data : List WireContact) : List Contact :=
  data.map processAPIObject

/-! ## Forms and the update payload -/

/-- The entry list of a `FormData` object. -/
abbrev FormData := List (String × String)

/-- What `Model.submitContact` reads from the submitted form element: its
`id`, its `action`, the entries `new FormData(form)` lists, and the
`data-tags` attribute of its tag list (`form.querySelector('ul').dataset.tags`). -/
structure Form where
  id : String
  action : String
  entries : FormData
  dataTags : String
  deriving DecidableEq, Repr

/-- Replacement step of `FormData.prototype.set`: the first entry named `k`
takes the new value and every later entry named `k` is dropped. -/
def formDataReplace (k v : String) : FormData → FormData
  | [] => []
  | e :: es =>
    if e.1 = k then (k, v) :: es.filter (fun x => x.1 != k)
    else e :: formDataReplace k v es

/-- The call `formData.set(k, v)`. -/
def formDataSet (fd : FormData) (k v : String) : FormData :=
  if fd.any (fun e => e.1 == k) then formDataReplace k v fd else fd ++ [(k, v)]

/-- The method `Model.processTags`. -/
def processTags (formData : FormData) (form : Form) : FormData :=
  formDataSet formData "tags" form.dataTags

/-- The own properties of the object literal `uniqueValues`, in the order the
object lists them (the order `new URLSearchParams(uniqueValues)` reads them
in): first the properties whose name is an array index, by ascending index,
then the others in the order they were created. -/
abbrev JsObject := List (String × String)

/-- The array index a property name denotes, when it denotes one: the name is
the decimal numeral, without leading zero, of a number up to `2^32 - 2`. -/
def arrayIndex (key : String) : Option Nat :=
  let cs := key.toList
  if cs.all Char.isDigit && !cs.isEmpty && (cs.head? != some '0' || cs.length == 1) then
    let n := cs.foldl (fun n c => 10 * n + (c.toNat - 48)) 0
    if n ≤ 4294967294 then some n else none
  else none

/-- The place a new property named by the array index `n` takes: behind the
properties with a smaller array index, before every other property. -/
def insertIndexKey (n : Nat) (key value : String) : JsObject → JsObject
  | [] => [(key, value)]
  | e :: es =>
    match arrayIndex e.1 with
    | some m => if m < n then e :: insertIndexKey n key value es else (key, value) :: e :: es
    | none => (key, value) :: e :: es

/-- The assignment `obj[key] = value` of a string to an ordinary object:
assigning a string to `__proto__` is ignored, an existing own property is
overwritten in place, a new property named by an array index is listed among
the array indices in ascending order, and any other new property is listed
last. -/
def objSet (o : JsObject) (key value : String) : JsObject :=
  if key = "__proto__" then o
  else if o.any (fun e => e.1 == key) then
    o.map (fun e => if e.1 = key then (key, value) else e)
  else
    match arrayIndex key with
    | some n => insertIndexKey n key value o
    | none => o ++ [(key, value)]

/-- The last piece of the form action, `form.action.split('/').slice(-1)`,
as the string `Number` turns the one-element array into. -/
def actionId (action : String) : String :=
  ((jsSplit action '/').getLast?).getD ""

/-- The lookup `this.contacts.find(obj => obj.id === Number(id))`; `toNumber`
is `Number` on strings, `none` standing for `NaN` and for every number that
is not an integer. -/
def findContact (toNumber : String → Option Int) (contacts : List Contact)
    (id : String) : Option Contact :=
  contacts.find? (fun obj => toNumber id == some obj.id)

/-- The `for ... of formData.entries()` loop of `Model.processPutRequestData`:
reading `previousData[key]` throws a `TypeError` when `previousData` is
`undefined`. -/
def diffLoop (previousData : Option Contact) :
    FormData → JsObject → Except JsError JsObject
  | [], uniqueValues => .ok uniqueValues
  | (key, value) :: rest, uniqueValues =>
    match previousData with
    | none => .error .typeError
    | some prev =>
      if strictNeStr (prev.get key) value then
        diffLoop previousData rest (objSet uniqueValues key value)
      else diffLoop previousData rest uniqueValues

/-- The method `Model.processPutRequestData`. -/
def processPutRequestData (toNumber : String → Option Int) (contacts : List Contact)
    (formData : FormData) (form : Form) : Except JsError JsObject :=
  let id := actionId form.action
  let previousData := findContact toNumber contacts id
  diffLoop previousData formData []

/-! ## Network operations of the model -/

/-- A request handed to `fetch`. -/
structure Request where
  url : String
  method : String
  body : List (String × String)
  deriving DecidableEq, Repr

/-- How a `fetch` call settles: it resolves with a response whose `ok` flag
tells whether the status is in the range 200-299, or it rejects with a
`TypeError` object on a network fault. -/
inductive FetchOutcome where
  | response (ok : Bool)
  | fault
  deriving DecidableEq, Repr

/-- How the `GET` of the contact collection settles: a response with its `ok`
flag and what `response.json()` parses the body to (`none` when the body is
not JSON and `response.json()` rejects with a `SyntaxError`), or a network
fault. -/
inductive FetchAllOutcome where
  | response (ok : Bool) (json : Option (List WireContact))
  | fault
  deriving DecidableEq, Repr

/-- The values the promises of the model's network operations resolve with. -/
inductive OpResult where
  | undefined
  | bool (b : Bool)
  | errorObject
  | contacts (cs : List Contact)
  deriving DecidableEq, Repr

/-- Truthiness as tested by `!result`: `undefined` and `false` are falsy;
`true`, every error object and every array (the empty one too) are truthy. -/
def OpResult.truthy : OpResult → Bool
  | .undefined => false
  | .bool b => b
  | .errorObject => true
  | .contacts _ => true

/-- A settled promise. -/
inductive Settled where
  | resolved (v : OpResult)
  | rejected (e : JsError)
  deriving DecidableEq, Repr

/-- The method `Model.fetchAllContacts`: the value the returned promise
resolves with and the cache afterwards.
`.then(response => response.ok ? response.json() : Promise.reject())`
`.then(data => this.contacts = this.processAPIData(data))`
`.catch(error => error)`. -/
def fetchAllContacts (net : FetchAllOutcome) (contacts : List Contact) :
    OpResult × List Contact :=
  match net with
  | .response true (some data) =>
    let cs := processAPIData data
    (.contacts cs, cs)
  | .response true none => (.errorObject, contacts)
  | .response false _ => (.undefined, contacts)
  | .fault => (.errorObject, contacts)

/-- The tail of `Model.submitContact` and of `Model.deleteContact`:
`.then(res => res.ok ? true : false).catch(error => error)`. -/
def settleWrite (net : FetchOutcome) : OpResult :=
  match net with
  | .response ok => .bool (if ok then true else false)
  | .fault => .errorObject

/-- The part of `Model.submitContact` before the `fetch` call: the method and
the body of the request, or the exception thrown while they are computed. -/
def submitQuery (toNumber : String → Option Int) (contacts : List Contact)
    (form : Form) : Except JsError (String × List (String × String)) :=
  if form.id = "add_form" then
    let formData := processTags form.entries form
    .ok ("POST", formData)
  else
    let formData := processTags form.entries form
    match processPutRequestData toNumber contacts formData form with
    | .error e => .error e
    | .ok uniqueValues => .ok ("PUT", uniqueValues)

/-- The method `Model.submitContact`: how the returned promise settles, and
the requests handed to `fetch`.  An exception thrown in the body of the
`async` method rejects the promise before `fetch` is reached. -/
def submitContact (toNumber : String → Option Int) (fetch : Request → FetchOutcome)
    (contacts : List Contact) (form : Form) : Settled × List Request :=
  match submitQuery toNumber contacts form with
  | .error e => (.rejected e, [])
  | .ok (method, queryData) =>
    let req : Request := { url := form.action, method := method, body := queryData }
    (.resolved (settleWrite (fetch req)), [req])

/-- The method `Model.deleteContact`. -/
def deleteContact (fetch : Request → FetchOutcome) (id : String) :
    OpResult × List Request :=
  let req : Request :=
    { url := "http://localhost:3000/api/contacts/" ++ id, method := "DELETE", body := [] }
  (settleWrite (fetch req), [req])

/-! ## Controller: what is done with the outcome of a network operation -/

/-- What `Controller.handleSubmitForm` does once the form has passed
`reportValidity`: on the success branch it shows the alert, hides the form
and refreshes the page; on the failure branch the thrown error is caught and
its message logged, and nothing else happens. -/
inductive SubmitReaction where
  | succeeded (alertText : String)
  | failed
  deriving DecidableEq, Repr

/-- The `try` block of `Controller.handleSubmitForm`. -/
def handleSubmitForm (toNumber : String → Option Int) (fetch : Request → FetchOutcome)
    (contacts : List Contact) (form : Form) : SubmitReaction × List Request :=
  match submitContact toNumber fetch contacts form with
  | (.rejected _, reqs) => (.failed, reqs)
  | (.resolved result, reqs) =>
    if !result.truthy then (.failed, reqs)
    else
      (.succeeded ("Contact was successfully " ++
          (if form.id = "add_form" then "added" else "saved") ++ "."), reqs)

/-- What `Controller.handleDeleteEvent` and `Controller.refreshContactsPage`
do with a result: go on as after a success, or log the error. -/
inductive Reaction where
  | succeeded
  | failed
  deriving DecidableEq, Repr

/-- The `try` block of `Controller.handleDeleteEvent` (after the user has
confirmed): on the success branch the page is refreshed. -/
def handleDeleteEvent (fetch : Request → FetchOutcome) (id : String) : Reaction :=
  let result := (deleteContact fetch id).1
  if !result.truthy then .failed else .succeeded

/-- The method `Controller.refreshContactsPage`: the reaction, the cache
afterwards, and the list handed to `View.renderContacts` on the success
branch. -/
def refreshContactsPage (net : FetchAllOutcome) (contacts : List Contact) :
    Reaction × List Contact × Option (List Contact) :=
  let r := fetchAllContacts net contacts
  if !r.1.truthy then (.failed, r.2, none) else (.succeeded, r.2, some r.2)

/-! ## View: the tag list of a form -/

/-- The character class `[a-z0-9]` under the `i` flag: the ASCII letters of
both cases and the ASCII digits. -/
def isAlnumClass (c : Char) : Bool :=
  c.isAlphanum

/-- All matches of a pattern `[class]+` with the `g` flag: the maximal runs of
characters of the class, from left to right. -/
def matchRuns (p : Char → Bool) : List Char → List (List Char)
  | [] => []
  | c :: cs =>
    if p c then
      match cs with
      | [] => [[c]]
      | d :: _ =>
        if p d then
          match matchRuns p cs with
          | [] => [[c]]
          | r :: rs => (c :: r) :: rs
        else [c] :: matchRuns p cs
    else matchRuns p cs

/-- The expression `s.match(/[a-z0-9]+/gi) || []`. -/
def matchAlnum (s : String) : List String :=
  (matchRuns isAlnumClass s.toList).map String.mk

/-- The characters `String.prototype.trim` strips: the white space and line
terminator code points of ECMAScript. -/
def isJsWhitespace (c : Char) : Bool :=
  let n := c.toNat
  n == 0x09 || n == 0x0A || n == 0x0B || n == 0x0C || n == 0x0D || n == 0x20 ||
  n == 0xA0 || n == 0x1680 || (0x2000 ≤ n && n ≤ 0x200A) || n == 0x2028 ||
  n == 0x2029 || n == 0x202F || n == 0x205F || n == 0x3000 || n == 0xFEFF

/-- The call `s.trim()`. -/
def jsTrim (s : String) : String :=
  String.mk ((s.toList.dropWhile isJsWhitespace).reverse.dropWhile isJsWhitespace).reverse

/-- The call `xs.indexOf(x)`: the first index holding `x`, or `-1`. -/
def jsIndexOf (xs : List String) (x : String) : Int :=
  if x ∈ xs then (xs.indexOf x : Nat) else -1

/-- The call `xs.splice(start, 1)` as to what it leaves in `xs`: a negative
`start` counts from the end (`-1` is the last element), and nothing is removed
from an empty array. -/
def jsSpliceOne (xs : List String) (start : Int) : List String :=
  let len : Int := xs.length
  let from_ : Int := if start < 0 then max (len + start) 0 else min start len
  xs.eraseIdx from_.toNat

/-- A tag list element (`#add_tags_ul`, `#edit_tags_ul`): its `data-tags`
attribute and its `li` children, each given by the tag value `displayTag`
wrote into it. -/
structure TagList where
  dataTags : String
  items : List String
  deriving DecidableEq, Repr

/-- The method `View.displayTag`: a new `li` is appended. -/
def displayTag (tagUL : TagList) (tagValue : String) : TagList :=
  { tagUL with items := tagUL.items ++ [tagValue] }

/-- The data of the text node that precedes the delete button of a `li`
built by `displayTag` from the markup `tagValue` followed by a space and the
button (for a tag value without markup characters). -/
def itemText (tagValue : String) : String :=
  tagValue ++ " "

/-- What `View.addTagToForm` works on: the value of the input before the
button and the tag list after it. -/
structure TagWidget where
  input : String
  tagUL : TagList
  deriving DecidableEq, Repr

/-- The method `View.addTagToForm`: the widget afterwards and the text of the
alert, when one is raised. -/
def addTagToForm (w : TagWidget) : TagWidget × Option String :=
  if w.input = "" then (w, none)
  else
    let tagUL := w.tagUL
    let tags := matchAlnum tagUL.dataTags
    let tagValue := w.input
    if tags.contains tagValue then
      (w, some ("\"" ++ tagValue ++ "\" already exists as a tag on this contact."))
    else
      let tags := tags ++ [tagValue]
      let tagUL := displayTag tagUL tagValue
      ({ input := "", tagUL := { tagUL with dataTags := jsJoin tags } }, none)

/-- The method `View.deleteTagFromForm` for the delete button of the `li` at
position `i` of the tag list. -/
def deleteTagFromForm (tagUL : TagList) (i : Nat) : TagList :=
  match tagUL.items[i]? with
  | none => tagUL
  | some item =>
    let tagValue := jsTrim (itemText item)
    let tags := matchAlnum tagUL.dataTags
    let tags := jsSpliceOne tags (jsIndexOf tags tagValue)
    { dataTags := jsJoin tags, items := tagUL.items.eraseIdx i }

/-- The part of the page the view's form methods act on: whether each modal
carries the class `show`, and the two tag lists. -/
structure View where
  addModalShown : Bool
  editModalShown : Bool
  modalLayerShown : Bool
  addTags : TagList
  editTags : TagList
  deriving DecidableEq, Repr

/-- The method `View.displayAddContactForm`. -/
def displayAddContactForm (v : View) : View :=
  { v with modalLayerShown := true, addModalShown := true }

/-- The method `View.renderEditForm` on the tag list and the modals: for
truthy `contact.tags` the attribute is set to `tags.join(',')` and a `li` is
appended for each tag, otherwise the attribute is set to the empty string.
A non-empty string has no `join`, so the call throws. -/
def renderEditForm (v : View) (contact : Contact) : Except JsError View :=
  let tagUL := v.editTags
  let done (tagUL : TagList) : View :=
    { v with editTags := tagUL, editModalShown := true, modalLayerShown := true }
  match contact.tags with
  | .arr tags => .ok (done (tags.foldl displayTag { tagUL with dataTags := jsJoin tags }))
  | .str s => if s != "" then .error .typeError else .ok (done { tagUL with dataTags := "" })
  | _ => .ok (done { tagUL with dataTags := "" })

/-- The method `View.hideForm`, its timer callback included, for the form
with the given `id`: the modals lose the class `show`, and
`textContent = ''` removes the children of both tag lists. -/
def hideForm (v : View) (formId : String) : View :=
  let v := if formId = "add_form" then { v with addModalShown := false }
           else { v with editModalShown := false }
  let v := { v with modalLayerShown := false }
  { v with addTags := { v.addTags with items := [] },
           editTags := { v.editTags with items := [] } }

/-- The add form as `Model.submitContact` reads it at a submission. -/
def addFormOf (v : View) (action : String) (entries : FormData) : Form :=
  { id := "add_form", action := action, entries := entries, dataTags := v.addTags.dataTags }

/-! ## Controller: search and tag filtering -/

/-- The call `s.startsWith(q)`. -/
def jsStartsWith (s q : String) : Bool :=
  q.toList.isPrefixOf s.toList

/-- The method `Controller.handleSearch` for the value of the search bar:
the two arguments handed to `View.renderContacts` (a missing second argument
is falsy).  `toLowerCase` is `String.prototype.toLowerCase`. -/
def handleSearch (toLowerCase : String → String) (contacts : List Contact)
    (searchValue : String) : List Contact × Bool :=
  if searchValue = "" then (contacts, false)
  else
    let found := contacts.filter (fun contact =>
      jsStartsWith (toLowerCase contact.full_name) (toLowerCase searchValue))
    (found, true)

/-- The call `tags.includes(tagValue)` guarded by `contact.tags &&`: element
membership on an array, substring search on a non-empty string. -/
def tagsInclude (tags : Tags) (tagValue : String) : Bool :=
  match tags with
  | .absent => false
  | .null => false
  | .str s => s != "" && decide (tagValue.toList <:+: s.toList)
  | .arr xs => xs.contains tagValue

/-- The method `Controller.handleTagFiltering` for the text of the clicked
link: the list handed to `View.renderContacts`. -/
def handleTagFiltering (contacts : List Contact) (tagValue : String) : List Contact :=
  contacts.filter (fun contact => tagsInclude contact.tags tagValue)

/-! ## Controller: keystroke admission -/

/-- The focused element as `Controller.handleKeydownValidation` reads it: its
`name` and whether its class list contains `tag_input`. -/
structure Field where
  name : String
  tagInput : Bool
  deriving DecidableEq, Repr

/-- The test `/[class]+/.test(key)`: some character of `key` is in the class. -/
def regexTestClass (cls : Char → Bool) (key : String) : Bool :=
  key.toList.any cls

/-- The class `[a-z' ]` under the `i` flag. -/
def nameClass (c : Char) : Bool :=
  c.isAlpha || c == Char.ofNat 39 || c == ' '

/-- The class `[0-9\-]`. -/
def phoneClass (c : Char) : Bool :=
  c.isDigit || c == '-'

/-- The class `[ ]`. -/
def spaceClass (c : Char) : Bool :=
  c == ' '

/-- The method `Controller.handleKeydownValidation`: `true` when
`event.preventDefault()` is called, so that the key does not reach the field. -/
def handleKeydownValidation (field : Field) (key : String) : Bool :=
  if key = "Backspace" then false
  else if field.name = "full_name" && !regexTestClass nameClass key then true
  else if field.name = "phone_number" && !regexTestClass phoneClass key then true
  else if field.name = "email" && regexTestClass spaceClass key then true
  else if field.tagInput && (key = "," || key = " ") then true
  else false

/-- A key is admitted when its default action is not prevented. -/
def admits (field : Field) (key : String) : Bool :=
  !handleKeydownValidation field key

/-! ## Controller: debounce -/

/-- A pending timer: its id, the time it is due, and the arguments its
callback passes to the wrapped function. -/
structure Timer (E : Type) where
  id : Nat
  due : Nat
  args : E
  deriving DecidableEq, Repr

/-- The event loop as far as `Controller.debounce` uses it: the clock, the id
`setTimeout` hands out next (ids are positive), the pending timers, the
closure variable `timeout` (`none` for `undefined`), and the calls of the
wrapped function made so far, each with its time and argument. -/
structure Loop (E : Type) where
  now : Nat
  nextId : Nat
  timers : List (Timer E)
  timeout : Option Nat
  calls : List (Nat × E)
  deriving DecidableEq, Repr

/-- The state when `debounce` returns the wrapper. -/
def Loop.init (E : Type) : Loop E :=
  { now := 0, nextId := 1, timers := [], timeout := none, calls := [] }

/-- The call `clearTimeout(id)`. -/
def clearTimeout {E : Type} (s : Loop E) (id : Nat) : Loop E :=
  { s with timers := s.timers.filter (fun tm => tm.id != id) }

/-- The call `setTimeout(() => func.apply(null, args), delay)`: the state
afterwards and the id returned. -/
def setTimeout {E : Type} (s : Loop E) (delay : Nat) (args : E) : Loop E × Nat :=
  ({ s with timers := s.timers ++ [{ id := s.nextId, due := s.now + delay, args := args }],
            nextId := s.nextId + 1 }, s.nextId)

/-- The wrapper `debounce` returns, called with `args`:
`if (timeout) { clearTimeout(timeout) }` and then `timeout = setTimeout(...)`. -/
def debounced {E : Type} (delay : Nat) (s : Loop E) (args : E) : Loop E :=
  let s :=
    match s.timeout with
    | none => s
    | some id => if id != 0 then clearTimeout s id else s
  let r := setTimeout s delay args
  { r.1 with timeout := some r.2 }

/-- The clock moves to time `t`: every pending timer due by then runs its
callback, earliest first, which calls the wrapped function. -/
def advance {E : Type} (s : Loop E) (t : Nat) : Loop E :=
  let ready := (s.timers.filter (fun tm => tm.due ≤ t)).insertionSort (fun a b => a.due ≤ b.due)
  { s with now := max s.now t,
           timers := s.timers.filter (fun tm => !(tm.due ≤ t)),
           calls := s.calls ++ ready.map (fun tm => (tm.due, tm.args)) }

/-- A `keyup` event on the search bar at time `t`. -/
def keyup {E : Type} (delay : Nat) (s : Loop E) (k : Nat × E) : Loop E :=
  debounced delay (advance s k.1) k.2

/-- The state after a sequence of timestamped `keyup` events. -/
def runKeyups {E : Type} (delay : Nat) (ks : List (Nat × E)) : Loop E :=
  ks.foldl (keyup delay) (Loop.init E)

/-- Every timer still pending runs. -/
def settle {E : Type} (s : Loop E) : Loop E :=
  let ready := s.timers.insertionSort (fun a b => a.due ≤ b.due)
  { s with now := (ready.map (fun tm => tm.due)).foldl max s.now,
           timers := [],
           calls := s.calls ++ ready.map (fun tm => (tm.due, tm.args)) }

/-- The calls of the wrapped function caused by a sequence of timestamped
`keyup` events, once all timers have run. -/
def evaluations {E : Type} (delay : Nat) (ks : List (Nat × E)) : List (Nat × E) :=
  (settle (runKeyups delay ks)).calls

/-! ## Notions used to state the properties -/

/-- Every `keyup` event of the sequence comes no earlier than the one before
it and less than `delay` time units after it. -/
def withinWindow {E : Type} (delay : Nat) : List (Nat × E) → Prop
  | [] => True
  | [_] => True
  | a :: b :: rest => (a.1 ≤ b.1 ∧ b.1 < a.1 + delay) ∧ withinWindow delay (b :: rest)

/-- A sample of `Number` on strings, used at concrete inputs: it agrees with
`Number` on the strings of decimal digits (the empty string gives `0`). -/
def numberOfDigits (s : String) : Option Int :=
  if s.toList.all Char.isDigit then
    some (Int.ofNat (s.toList.foldl (fun n c => 10 * n + (c.toNat - 48)) 0))
  else none

/-- The tag sequence of a cached contact: the elements of its `tags` array,
and no tag at all when `tags` is missing, `null` or a string. -/
def Contact.tagSequence (c : Contact) : List String :=
  match c.tags with
  | .arr xs => xs
  | _ => []

/-- Lower-casing of the letters `A`-`Z`, every other character kept: what
`String.prototype.toLowerCase` does to a string of ASCII characters. -/
def asciiLowerCase (s : String) : String :=
  String.mk (s.toList.map Char.toLower)

/-- A string of ASCII characters only. -/
def isAsciiString (s : String) : Bool :=
  s.toList.all (fun c => c.toNat < 128)

/-- Two characters are the same when case is ignored: they are equal, or one
is a capital letter `A`-`Z` and the other the small letter that goes with it
(32 code points further). -/
def sameUpToCase (c d : Char) : Bool :=
  c == d || (c.isUpper && d.toNat == c.toNat + 32) || (d.isUpper && c.toNat == d.toNat + 32)

/-- Prefix test that ignores case: `name` starts with `q` when every
character of `q` is, case ignored, the character of `name` at the same
position. -/
def startsWithIgnoringCase : List Char → List Char → Bool
  | _, [] => true
  | [], _ :: _ => false
  | c :: name, d :: q => sameUpToCase c d && startsWithIgnoringCase name q

/-- The state after the `n`-th `keyup` of a burst, at time `t` with event `e`:
one pending timer, the `n`-th, due at `t + delay`, and no call made. -/
def burstState {E : Type} (delay n t : Nat) (e : E) : Loop E :=
  { now := t, nextId := n + 1, timers := [{ id := n, due := t + delay, args := e }],
    timeout := some n, calls := [] }

/-- The characters of a comma-joined list of character strings. -/
def joinChars : List (List Char) → List Char
  | [] => []
  | [a] => a
  | a :: b :: rest => a ++ ',' :: joinChars (b :: rest)

/-- A tag that is not empty and made of the letters `a`-`z`, `A`-`Z` and the
digits `0`-`9` only. -/
def isAlnumTag (t : String) : Prop :=
  t ≠ "" ∧ ∀ c ∈ t.toList, isAlnumClass c = true

/-! ## Properties -/

/-! ### Network outcomes -/

/-- For a response, the write operations resolve with the `ok` flag, which
the controller tests. -/
theorem settleWrite_response (ok : Bool) :
    (settleWrite (.response ok)).truthy = ok := by
  cases ok <;> rfl

/-- When `fetch` resolves with a response, every operation is taken as a
success exactly when the status is in the success range; a refresh then
replaces the cache by the processed data and renders it, and leaves the cache
alone and renders nothing otherwise. -/
theorem response_taken_by_status (toNumber : String → Option Int)
    (contacts : List Contact) (action id : String) (entries : FormData) (dataTags : String)
    (ok : Bool) (data : List WireContact) (json : Option (List WireContact)) :
    (handleSubmitForm toNumber (fun _ => .response ok) contacts
        { id := "add_form", action := action, entries := entries, dataTags := dataTags }).1
      = (if ok then .succeeded "Contact was successfully added." else .failed)
    ∧ handleDeleteEvent (fun _ => .response ok) id = (if ok then .succeeded else .failed)
    ∧ refreshContactsPage (.response true (some data)) contacts
        = (.succeeded, processAPIData data, some (processAPIData data))
    ∧ refreshContactsPage (.response false json) contacts = (.failed, contacts, none) := by
  refine ⟨?_, ?_, rfl, rfl⟩
  · cases ok <;>
      simp [handleSubmitForm, submitContact, submitQuery, settleWrite, OpResult.truthy]
  · cases ok <;> rfl

/-- C2: on a network fault (`fetch` rejects) every network operation resolves
with the error object, which is truthy, so the controller takes the success
branch: the add form reports "Contact was successfully added." and is hidden,
a delete is followed by a refresh, and a failed refresh renders the cache;
only a response with a non-success status is treated as a failure. -/
theorem network_fault_taken_as_success (toNumber : String → Option Int)
    (contacts : List Contact) (action id : String) (entries : FormData) (dataTags : String) :
    (handleSubmitForm toNumber (fun _ => .fault) contacts
        { id := "add_form", action := action, entries := entries, dataTags := dataTags }).1
      = .succeeded "Contact was successfully added."
    ∧ handleDeleteEvent (fun _ => .fault) id = .succeeded
    ∧ refreshContactsPage .fault contacts = (.succeeded, contacts, some contacts)
    ∧ handleDeleteEvent (fun _ => .response false) id = .failed := by
  refine ⟨?_, ?_, ?_, ?_⟩
  · simp [handleSubmitForm, submitContact, submitQuery, settleWrite, OpResult.truthy]
  · rfl
  · rfl
  · rfl

/-! ### Update of a contact that is not cached -/

theorem formDataReplace_ne_nil (k v : String) :
    ∀ fd : FormData, fd.any (fun e => e.1 == k) = true → formDataReplace k v fd ≠ []
  | [], h => by simp at h
  | e :: es, h => by
    unfold formDataReplace
    split
    · simp
    · simp

theorem formDataSet_ne_nil (fd : FormData) (k v : String) : formDataSet fd k v ≠ [] := by
  unfold formDataSet
  split
  · next h => exact formDataReplace_ne_nil k v fd h
  · simp

theorem diffLoop_none (fd : FormData) (acc : JsObject) (h : fd ≠ []) :
    diffLoop none fd acc = .error .typeError := by
  cases fd with
  | nil => exact absurd rfl h
  | cons e es => rfl

theorem findContact_none (toNumber : String → Option Int) (contacts : List Contact)
    (id : String) (h : ∀ c ∈ contacts, toNumber id ≠ some c.id) :
    findContact toNumber contacts id = none := by
  unfold findContact
  rw [List.find?_eq_none]
  intro c hc
  simpa using h c hc

/-- C3: when no cached contact has the id named by the action of the edit
form, `processPutRequestData` throws on the first entry (there is always one,
`processTags` sets `tags`), so `submitContact` rejects with that error and
hands no request to `fetch`, and the controller takes the failure branch; no
diff is returned. -/
theorem update_unknown_id_signals_error (toNumber : String → Option Int)
    (fetch : Request → FetchOutcome) (contacts : List Contact) (form : Form)
    (hedit : form.id ≠ "add_form")
    (hid : ∀ c ∈ contacts, toNumber (actionId form.action) ≠ some c.id) :
    processPutRequestData toNumber contacts (processTags form.entries form) form
        = .error .typeError
    ∧ submitContact toNumber fetch contacts form = (.rejected .typeError, [])
    ∧ handleSubmitForm toNumber fetch contacts form = (.failed, []) := by
  have h1 : processPutRequestData toNumber contacts (processTags form.entries form) form
      = .error .typeError := by
    unfold processPutRequestData
    simp only [findContact_none toNumber contacts _ hid]
    exact diffLoop_none _ _ (formDataSet_ne_nil _ _ _)
  have h2 : submitContact toNumber fetch contacts form = (.rejected .typeError, []) := by
    simp [submitContact, submitQuery, hedit, h1]
  refine ⟨h1, h2, ?_⟩
  simp [handleSubmitForm, h2]

/-- C3, at an edit form addressed to contact 7 while only contact 1 is cached. -/
theorem update_unknown_id_signals_error_witness :
    ("edit_form" ≠ "add_form"
      ∧ ∀ c ∈ [(⟨1, "A", "1", "a@x.com", .null⟩ : Contact)],
          numberOfDigits (actionId "http://localhost:3000/api/contacts/7") ≠ some c.id)
    ∧ (processPutRequestData numberOfDigits
        [⟨1, "A", "1", "a@x.com", .null⟩]
        (processTags [("full_name", "B")]
          ⟨"edit_form", "http://localhost:3000/api/contacts/7", [("full_name", "B")], ""⟩)
        ⟨"edit_form", "http://localhost:3000/api/contacts/7", [("full_name", "B")], ""⟩
        = .error .typeError
      ∧ submitContact numberOfDigits (fun _ => .response true)
        [⟨1, "A", "1", "a@x.com", .null⟩]
        ⟨"edit_form", "http://localhost:3000/api/contacts/7", [("full_name", "B")], ""⟩
        = (.rejected .typeError, [])
      ∧ handleSubmitForm numberOfDigits (fun _ => .response true)
        [⟨1, "A", "1", "a@x.com", .null⟩]
        ⟨"edit_form", "http://localhost:3000/api/contacts/7", [("full_name", "B")], ""⟩
        = (.failed, [])) :=
  ⟨⟨by decide, by decide⟩,
   update_unknown_id_signals_error numberOfDigits (fun _ => .response true)
    [⟨1, "A", "1", "a@x.com", .null⟩]
    ⟨"edit_form", "http://localhost:3000/api/contacts/7", [("full_name", "B")], ""⟩
    (by decide) (by decide)⟩

/-! ### Tag list of a form -/

theorem joinChars_glue (x y : List Char) (rest : List (List Char)) :
    joinChars ((x ++ ',' :: y) :: rest) = x ++ ',' :: joinChars (y :: rest) := by
  cases rest with
  | nil => rfl
  | cons r rs => simp [joinChars]

theorem intercalate_go_toList :
    ∀ (xs : List String) (acc : String),
      (String.intercalate.go acc "," xs).toList = joinChars (acc.toList :: xs.map String.toList)
  | [], acc => rfl
  | a :: as, acc => by
    rw [String.intercalate.go, intercalate_go_toList as]
    simp only [String.toList, String.data_append, List.map_cons]
    rw [List.append_assoc]
    exact joinChars_glue acc.data a.data _

theorem matchRuns_run (p : Char → Bool) :
    ∀ t : List Char, t ≠ [] → (∀ c ∈ t, p c = true) → matchRuns p t = [t]
  | [], h, _ => absurd rfl h
  | [a], _, hp => by simp [matchRuns, hp a (by simp)]
  | a :: b :: t, _, hp => by
    have ha : p a = true := hp a (by simp)
    have hb : p b = true := hp b (by simp)
    have ih := matchRuns_run p (b :: t) (by simp) (fun c hc => hp c (List.mem_cons_of_mem _ hc))
    rw [matchRuns]
    simp only [ha, hb, if_true, ih]

theorem matchRuns_run_sep (p : Char → Bool) (sep : Char) (hsep : p sep = false)
    (rest : List Char) :
    ∀ t : List Char, t ≠ [] → (∀ c ∈ t, p c = true) →
      matchRuns p (t ++ sep :: rest) = t :: matchRuns p rest
  | [], h, _ => absurd rfl h
  | [a], _, hp => by
    have ha : p a = true := hp a (by simp)
    simp [matchRuns, ha, hsep]
  | a :: b :: t, _, hp => by
    have ha : p a = true := hp a (by simp)
    have hb : p b = true := hp b (by simp)
    have ih := matchRuns_run_sep p sep hsep rest (b :: t) (by simp)
      (fun c hc => hp c (List.mem_cons_of_mem _ hc))
    simp only [List.cons_append] at ih ⊢
    rw [matchRuns]
    simp only [ha, hb, if_true, ih]

theorem matchRuns_joinChars (p : Char → Bool) (hsep : p ',' = false) :
    ∀ ts : List (List Char), (∀ t ∈ ts, t ≠ [] ∧ ∀ c ∈ t, p c = true) →
      matchRuns p (joinChars ts) = ts
  | [], _ => rfl
  | [a], h => matchRuns_run p a (h a (by simp)).1 (h a (by simp)).2
  | a :: b :: rest, h => by
    rw [joinChars, matchRuns_run_sep p ',' hsep _ a (h a (by simp)).1 (h a (by simp)).2,
      matchRuns_joinChars p hsep (b :: rest) (fun t ht => h t (List.mem_cons_of_mem _ ht))]

theorem jsJoin_toList (xs : List String) :
    (jsJoin xs).toList = joinChars (xs.map String.toList) := by
  cases xs with
  | nil => rfl
  | cons a as => exact intercalate_go_toList as a

theorem matchAlnum_jsJoin (ts : List String) (hts : ∀ t ∈ ts, isAlnumTag t) :
    matchAlnum (jsJoin ts) = ts := by
  unfold matchAlnum
  rw [jsJoin_toList, matchRuns_joinChars isAlnumClass (by decide), List.map_map]
  · calc ts.map (String.mk ∘ String.toList) = ts.map id :=
          List.map_congr_left (fun t _ => rfl)
      _ = ts := List.map_id ts
  · intro t ht
    obtain ⟨s, hs, rfl⟩ := List.mem_map.1 ht
    exact ⟨fun h => (hts s hs).1 (String.ext h), (hts s hs).2⟩

theorem isDigit_iff (c : Char) : c.isDigit = true ↔ 48 ≤ c.toNat ∧ c.toNat ≤ 57 := by
  simp [Char.isDigit, Char.toNat, UInt32.le_def, BitVec.le_def, UInt32.toNat]

theorem isAlpha_iff (c : Char) :
    c.isAlpha = true ↔ (65 ≤ c.toNat ∧ c.toNat ≤ 90) ∨ (97 ≤ c.toNat ∧ c.toNat ≤ 122) := by
  simp [Char.isAlpha, Char.isUpper, Char.isLower, Char.toNat, UInt32.le_def, BitVec.le_def,
    UInt32.toNat]

theorem char_eq_iff (c d : Char) : c = d ↔ c.toNat = d.toNat := by
  constructor
  · rintro rfl
    rfl
  · intro h
    exact Char.ext (UInt32.ext h)

theorem not_whitespace_of_alnum (c : Char) (h : isAlnumClass c = true) :
    isJsWhitespace c = false := by
  rw [Bool.eq_false_iff]
  intro hw
  simp only [isAlnumClass, Char.isAlphanum, Bool.or_eq_true, isAlpha_iff, isDigit_iff] at h
  simp only [isJsWhitespace, Bool.or_eq_true, Bool.and_eq_true, beq_iff_eq,
    decide_eq_true_eq] at hw
  omega

theorem jsTrim_itemText (t : String) (ht : isAlnumTag t) : jsTrim (itemText t) = t := by
  obtain ⟨hne, hall⟩ := ht
  have hne2 : t.toList ≠ [] := fun h => hne (String.ext h)
  have hfirst : (t.toList ++ [' ']).dropWhile isJsWhitespace = t.toList ++ [' '] := by
    cases hl : t.toList with
    | nil => exact absurd hl hne2
    | cons a l =>
      have := not_whitespace_of_alnum a (hall a (by rw [hl]; simp))
      simp [List.dropWhile_cons, this]
  have hlast : t.toList.reverse.dropWhile isJsWhitespace = t.toList.reverse := by
    cases hl : t.toList.reverse with
    | nil => exact absurd (List.reverse_eq_nil_iff.1 hl) hne2
    | cons a l =>
      have ha : a ∈ t.toList := by
        rw [← List.mem_reverse, hl]
        simp
      have := not_whitespace_of_alnum a (hall a ha)
      simp [List.dropWhile_cons, this]
  have hsp : isJsWhitespace ' ' = true := by decide
  have hdata : (t ++ " ").toList = t.toList ++ [' '] := String.data_append t " "
  unfold jsTrim itemText
  rw [hdata, hfirst, List.reverse_append, List.reverse_singleton, List.singleton_append,
    List.dropWhile_cons, if_pos hsp, hlast, List.reverse_reverse]
  rfl

theorem jsSpliceOne_jsIndexOf (ts : List String) (t : String) (ht : t ∈ ts) :
    jsSpliceOne ts (jsIndexOf ts t) = ts.erase t := by
  have hlt : ts.indexOf t < ts.length := List.indexOf_lt_length.2 ht
  unfold jsSpliceOne jsIndexOf
  rw [if_pos ht]
  have h0 : ¬ ((ts.indexOf t : Nat) : Int) < 0 := by omega
  simp only [h0, if_false]
  have hmin : min ((ts.indexOf t : Nat) : Int) (ts.length : Int) = ((ts.indexOf t : Nat) : Int) := by
    omega
  rw [hmin, Int.toNat_ofNat, List.eraseIdx_indexOf_eq_erase]

/-- What `addTagToForm` does when the tags held in `data-tags` are made of
letters and digits: a value that is already a tag leaves the widget as it is
and raises the alert, any other non-empty value is appended to the list and
to the comma-joined attribute. -/
theorem addTagToForm_alnum (ts items : List String) (v : String)
    (hts : ∀ t ∈ ts, isAlnumTag t) (hv : v ≠ "") :
    addTagToForm ⟨v, ⟨jsJoin ts, items⟩⟩
      = if v ∈ ts then
          (⟨v, ⟨jsJoin ts, items⟩⟩,
            some ("\"" ++ v ++ "\" already exists as a tag on this contact."))
        else (⟨"", ⟨jsJoin (ts ++ [v]), items ++ [v]⟩⟩, none) := by
  unfold addTagToForm
  simp only [hv, if_false, matchAlnum_jsJoin ts hts, displayTag]
  by_cases h : v ∈ ts <;> simp [h]

/-- What `deleteTagFromForm` does when the tags shown and held in `data-tags`
are made of letters and digits: the item is removed from the list and the
first tag with its text from the comma-joined attribute. -/
theorem deleteTagFromForm_alnum (ts : List String) (i : Nat)
    (hts : ∀ t ∈ ts, isAlnumTag t) (hi : i < ts.length) :
    deleteTagFromForm ⟨jsJoin ts, ts⟩ i
      = ⟨jsJoin (ts.erase (ts.get ⟨i, hi⟩)), ts.eraseIdx i⟩ := by
  have hmem : ts.get ⟨i, hi⟩ ∈ ts := List.get_mem ts i hi
  unfold deleteTagFromForm
  simp only [List.getElem?_eq_getElem hi, matchAlnum_jsJoin ts hts]
  rw [jsTrim_itemText _ (hts _ (List.getElem_mem hi)), jsSpliceOne_jsIndexOf ts _ (List.getElem_mem hi)]
  rfl


/-- C4: with the tag `my-tag` shown and held in `data-tags`, adding `my-tag`
again raises no warning: the attribute is read back as the two words `my`
and `tag`, the new value is appended to both, and the attribute becomes
`my,tag,my-tag`; adding `c` to the single tag `a-b` gives `a,b,c`, not
`a-b,c`. -/
theorem addTagToForm_hyphenated_tag :
    addTagToForm ⟨"my-tag", ⟨"my-tag", ["my-tag"]⟩⟩
      = (⟨"", ⟨"my,tag,my-tag", ["my-tag", "my-tag"]⟩⟩, none)
    ∧ addTagToForm ⟨"c", ⟨"a-b", ["a-b"]⟩⟩ = (⟨"", ⟨"a,b,c", ["a-b", "c"]⟩⟩, none) := by
  decide

/-- C5: with the tags `a-b` and `c` shown and `a-b,c` in `data-tags`,
removing `a-b` reads the attribute back as `a`, `b`, `c`, does not find
`a-b`, and `splice(-1, 1)` drops the last word: the attribute becomes `a,b`
while the list shows `c`. -/
theorem deleteTagFromForm_hyphenated_tag :
    deleteTagFromForm ⟨"a-b,c", ["a-b", "c"]⟩ 0 = ⟨"a,b", ["c"]⟩ := by
  decide

/-- C6: `hideForm` empties the visible tag lists and leaves both `data-tags`
attributes as they were, so the next submission of the add form sends the
tags of the earlier use: after the tag `work` was added and the form hidden,
submitting a name alone posts `tags = work`. -/
theorem hideForm_keeps_dataTags :
    (∀ (v : View) (formId : String),
        (hideForm v formId).addTags = ⟨v.addTags.dataTags, []⟩
        ∧ (hideForm v formId).editTags = ⟨v.editTags.dataTags, []⟩)
    ∧ (submitContact numberOfDigits (fun _ => .response true) []
        (addFormOf
          (hideForm ⟨true, false, true, ⟨"work", ["work"]⟩, ⟨"", []⟩⟩ "add_form")
          "http://localhost:3000/api/contacts/" [("full_name", "B")])).2
      = [⟨"http://localhost:3000/api/contacts/", "POST",
          [("full_name", "B"), ("tags", "work")]⟩] := by
  refine ⟨?_, by decide⟩
  intro v formId
  unfold hideForm
  split <;> exact ⟨rfl, rfl⟩

/-! ### Search and tag filtering -/

theorem toLower_toNat (c : Char) :
    c.toLower.toNat = if 65 ≤ c.toNat ∧ c.toNat ≤ 90 then c.toNat + 32 else c.toNat := by
  unfold Char.toLower
  simp only [ge_iff_le]
  split
  · next h =>
    have hv : (c.toNat + 32).isValidChar := by
      left
      omega
    rw [Char.ofNat, dif_pos hv]
    rfl
  · rfl

theorem isUpper_iff (c : Char) : c.isUpper = true ↔ 65 ≤ c.toNat ∧ c.toNat ≤ 90 := by
  simp [Char.isUpper, Char.toNat, UInt32.le_def, BitVec.le_def, UInt32.toNat]

theorem toLower_beq (c d : Char) :
    (d.toLower == c.toLower) = sameUpToCase c d := by
  rw [Bool.eq_iff_iff]
  simp only [sameUpToCase, beq_iff_eq, Bool.or_eq_true, Bool.and_eq_true, isUpper_iff]
  have hc := toLower_toNat c
  have hd := toLower_toNat d
  constructor
  · intro h
    have h2 := congrArg Char.toNat h
    rw [hc, hd] at h2
    have key : c.toNat = d.toNat ∨ ((65 ≤ c.toNat ∧ c.toNat ≤ 90) ∧ d.toNat = c.toNat + 32)
        ∨ ((65 ≤ d.toNat ∧ d.toNat ≤ 90) ∧ c.toNat = d.toNat + 32) := by
      split at h2 <;> split at h2 <;> omega
    rcases key with h3 | h3 | h3
    · exact Or.inl (Or.inl (Char.ext (UInt32.ext h3)))
    · exact Or.inl (Or.inr h3)
    · exact Or.inr h3
  · intro h
    apply Char.ext
    apply UInt32.ext
    show d.toLower.toNat = c.toLower.toNat
    rw [hc, hd]
    rcases h with (h | h) | h
    · rw [h]
    · split <;> split <;> omega
    · split <;> split <;> omega

theorem isPrefixOf_map_toLower :
    ∀ (name q : List Char),
      (q.map Char.toLower).isPrefixOf (name.map Char.toLower) = startsWithIgnoringCase name q
  | _, [] => by simp [startsWithIgnoringCase]
  | [], _ :: _ => by simp [startsWithIgnoringCase, List.isPrefixOf]
  | c :: name, d :: q => by
    simp only [List.map_cons, List.isPrefixOf, startsWithIgnoringCase]
    rw [toLower_beq, isPrefixOf_map_toLower name q]

/-- C7: for every cache and every query, the list `handleSearch` hands to the
presenter is, for the empty query, the cache itself; for a query and full
names of ASCII characters it is the cache filtered, in order, by "the full
name starts with the query, case ignored" (each character of the query is
equal to the character of the name at its position or differs from it only
by the case of a letter `a`-`z`); and in general it is the cache filtered by
"the lower-cased full name starts with the lower-cased query".
`toLowerCase` is any function that lower-cases ASCII strings the way
`String.prototype.toLowerCase` does. -/
theorem handleSearch_prefix_filter (toLowerCase : String → String)
    (hlower : ∀ s, isAsciiString s = true → toLowerCase s = asciiLowerCase s)
    (L : List Contact) (q : String) :
    (handleSearch toLowerCase L "").1 = L
    ∧ (isAsciiString q = true → (∀ c ∈ L, isAsciiString c.full_name = true) →
        (handleSearch toLowerCase L q).1
          = L.filter (fun c => startsWithIgnoringCase c.full_name.toList q.toList))
    ∧ (handleSearch toLowerCase L q).1
        = L.filter (fun c =>
            decide ((toLowerCase q).toList <+: (toLowerCase c.full_name).toList)) := by
  have hempty : toLowerCase "" = "" := hlower "" rfl
  refine ⟨by simp [handleSearch], ?_, ?_⟩
  · intro hq hL
    unfold handleSearch
    split
    · next h =>
      subst h
      have : ∀ l : List Char, startsWithIgnoringCase l [] = true :=
        fun l => by cases l <;> rfl
      simp [this]
    · apply List.filter_congr
      intro c hc
      rw [hlower q hq, hlower c.full_name (hL c hc)]
      exact isPrefixOf_map_toLower c.full_name.toList q.toList
  · unfold handleSearch
    split
    · next h =>
      subst h
      simp [hempty]
    · apply List.filter_congr
      intro c _
      rw [Bool.eq_iff_iff]
      simp [jsStartsWith, List.isPrefixOf_iff_prefix]

/-- C7, at a cache of three contacts: the query `aL` finds `Alice` and
`alan`, in that order, and the empty query gives the whole cache. -/
theorem handleSearch_prefix_filter_witness :
    (∀ s, isAsciiString s = true → asciiLowerCase s = asciiLowerCase s)
    ∧ (handleSearch asciiLowerCase
          [⟨1, "Alice", "1", "a@x.com", .null⟩, ⟨2, "Bob", "2", "b@x.com", .null⟩,
           ⟨3, "alan", "3", "c@x.com", .null⟩] "aL").1
        = [⟨1, "Alice", "1", "a@x.com", .null⟩, ⟨3, "alan", "3", "c@x.com", .null⟩]
    ∧ (handleSearch asciiLowerCase
          [⟨1, "Alice", "1", "a@x.com", .null⟩, ⟨2, "Bob", "2", "b@x.com", .null⟩,
           ⟨3, "alan", "3", "c@x.com", .null⟩] "").1
        = [⟨1, "Alice", "1", "a@x.com", .null⟩, ⟨2, "Bob", "2", "b@x.com", .null⟩,
           ⟨3, "alan", "3", "c@x.com", .null⟩] :=
  ⟨fun _ _ => rfl,
   ((handleSearch_prefix_filter asciiLowerCase (fun _ _ => rfl)
      [⟨1, "Alice", "1", "a@x.com", .null⟩, ⟨2, "Bob", "2", "b@x.com", .null⟩,
       ⟨3, "alan", "3", "c@x.com", .null⟩] "aL").2.1 (by decide) (by decide)).trans
     (by decide),
   (handleSearch_prefix_filter asciiLowerCase (fun _ _ => rfl)
      [⟨1, "Alice", "1", "a@x.com", .null⟩, ⟨2, "Bob", "2", "b@x.com", .null⟩,
       ⟨3, "alan", "3", "c@x.com", .null⟩] "aL").1⟩

theorem tagsInclude_processAPIObject (w : WireContact) (g : String) :
    tagsInclude (processAPIObject w).tags g = decide (g ∈ (processAPIObject w).tagSequence) := by
  unfold processAPIObject Contact.tagSequence tagsInclude
  rcases w with ⟨id, fn, pn, em, tags⟩
  cases tags with
  | absent => simp
  | null => simp
  | str s =>
    by_cases h : s = ""
    · simp [h]
    · simp [h]

/-- C8: over a cache built by `processAPIData`, the list `handleTagFiltering`
hands to the presenter is the cache filtered, in order, by "the tag sequence
has an element equal to the tag name"; a contact whose `tags` is missing,
`null` or the empty string is never in it. -/
theorem handleTagFiltering_membership (data : List WireContact) (g : String) :
    handleTagFiltering (processAPIData data) g
      = (processAPIData data).filter (fun c => decide (g ∈ c.tagSequence))
    ∧ ∀ c ∈ processAPIData data,
        c.tags = .absent ∨ c.tags = .null ∨ c.tags = .str "" →
        c ∉ handleTagFiltering (processAPIData data) g := by
  constructor
  · unfold handleTagFiltering processAPIData
    apply List.filter_congr
    intro c hc
    obtain ⟨w, _, rfl⟩ := List.mem_map.1 hc
    exact tagsInclude_processAPIObject w g
  · intro c _ htags hmem
    unfold handleTagFiltering at hmem
    have := (List.mem_filter.1 hmem).2
    rcases htags with h | h | h <;> simp [h, tagsInclude] at this

/-- C8, at a cache of three contacts of which the first alone carries the tag
`work`; the third has the empty tag string and the second a tag that only
contains `work`. -/
theorem handleTagFiltering_membership_witness :
    handleTagFiltering
        (processAPIData [⟨1, "A", "1", "a@x.com", .str "work,home"⟩,
          ⟨2, "B", "2", "b@x.com", .str "homework"⟩, ⟨3, "C", "3", "c@x.com", .str ""⟩]) "work"
      = [⟨1, "A", "1", "a@x.com", .arr ["work", "home"]⟩]
    ∧ (⟨3, "C", "3", "c@x.com", .str ""⟩ : Contact) ∉
        handleTagFiltering
          (processAPIData [⟨1, "A", "1", "a@x.com", .str "work,home"⟩,
            ⟨2, "B", "2", "b@x.com", .str "homework"⟩, ⟨3, "C", "3", "c@x.com", .str ""⟩]) "work" :=
  ⟨by decide,
   (handleTagFiltering_membership
      [⟨1, "A", "1", "a@x.com", .str "work,home"⟩,
        ⟨2, "B", "2", "b@x.com", .str "homework"⟩, ⟨3, "C", "3", "c@x.com", .str ""⟩] "work").2
      ⟨3, "C", "3", "c@x.com", .str ""⟩ (by decide) (Or.inr (Or.inr rfl))⟩

/-! ### Keystroke admission -/

theorem singleton_ne_backspace (c : Char) : String.singleton c ≠ "Backspace" := by
  intro h
  have := congrArg String.length h
  simp at this
  exact absurd this (by decide)

theorem singleton_eq_iff (c d : Char) : String.singleton c = String.singleton d ↔ c = d := by
  constructor
  · intro h
    have := congrArg String.toList h
    simpa using this
  · rintro rfl
    rfl

theorem regexTestClass_singleton (cls : Char → Bool) (c : Char) :
    regexTestClass cls (String.singleton c) = cls c := by
  simp [regexTestClass]

theorem keydown_singleton (field : Field) (c : Char) :
    handleKeydownValidation field (String.singleton c)
      = (if field.name = "full_name" && !nameClass c then true
         else if field.name = "phone_number" && !phoneClass c then true
         else if field.name = "email" && spaceClass c then true
         else if field.tagInput && (decide (c = ',') || decide (c = ' ')) then true
         else false) := by
  have e1 : (String.singleton c = ",") = (c = ',') :=
    propext (singleton_eq_iff c ',')
  have e2 : (String.singleton c = " ") = (c = ' ') :=
    propext (singleton_eq_iff c ' ')
  unfold handleKeydownValidation
  rw [if_neg (singleton_ne_backspace c)]
  simp only [regexTestClass_singleton, e1, e2]

/-- C9: in a field with the class `tag_input` a comma is rejected; in a
`full_name` field every digit `0`-`9` is rejected; `Backspace` is admitted in
every field; and for a key made of one character `c`: a `full_name` field
(not a tag input) admits it iff `c` is a letter `a`-`z` or `A`-`Z`, an
apostrophe or a space; a `phone_number` field admits it iff `c` is a digit
`0`-`9` or a hyphen; an `email` field (not a tag input) admits it iff `c` is
not a space; a tag input (not named `full_name` or `phone_number`) admits it
iff `c` is neither a comma nor a space. -/
theorem keydown_admission (field : Field) (c : Char) :
    (field.tagInput = true → admits field "," = false)
    ∧ (field.name = "full_name" → c.isDigit = true →
        admits field (String.singleton c) = false)
    ∧ admits field "Backspace" = true
    ∧ (field.name = "full_name" → field.tagInput = false →
        (admits field (String.singleton c) = true ↔
          (c.isAlpha = true ∨ c = Char.ofNat 39 ∨ c = ' ')))
    ∧ (field.name = "phone_number" →
        (admits field (String.singleton c) = true ↔ (c.isDigit = true ∨ c = '-')))
    ∧ (field.name = "email" → field.tagInput = false →
        (admits field (String.singleton c) = true ↔ c ≠ ' '))
    ∧ (field.tagInput = true → field.name ≠ "full_name" → field.name ≠ "phone_number" →
        (admits field (String.singleton c) = true ↔ (c ≠ ',' ∧ c ≠ ' '))) := by
  have hcomma : (',' : Char).toNat = 44 := by decide
  have hspace : (' ' : Char).toNat = 32 := by decide
  have hhyphen : ('-' : Char).toNat = 45 := by decide
  refine ⟨?_, ?_, ?_, ?_, ?_, ?_, ?_⟩
  · intro ht
    have := keydown_singleton field ','
    rw [show String.singleton ',' = "," from rfl] at this
    simp only [admits, this, ht]
    by_cases h1 : field.name = "full_name"
    · simp [h1, nameClass]
    · by_cases h2 : field.name = "phone_number"
      · simp [h2, phoneClass]
      · simp [h1, h2]
  · intro hn hd
    rw [isDigit_iff] at hd
    have hc : nameClass c = false := by
      rw [Bool.eq_false_iff]
      intro h
      simp only [nameClass, Bool.or_eq_true, beq_iff_eq, isAlpha_iff, char_eq_iff] at h
      have h39 : (Char.ofNat 39).toNat = 39 := by decide
      omega
    simp [admits, keydown_singleton, hn, hc]
  · simp [admits, handleKeydownValidation]
  · intro hn ht
    simp [admits, keydown_singleton, hn, ht, nameClass, or_assoc]
  · intro hn
    have hp : phoneClass c = true ↔ (c.isDigit = true ∨ c = '-') := by simp [phoneClass]
    by_cases hc : phoneClass c = true
    · have hd := hp.1 hc
      have h1 : c ≠ ',' ∧ c ≠ ' ' := by
        rw [isDigit_iff, char_eq_iff] at hd
        rw [Ne, Ne, char_eq_iff, char_eq_iff]
        omega
      simp [admits, keydown_singleton, hn, hc, h1.1, h1.2, hd]
    · have hd : ¬ (c.isDigit = true ∨ c = '-') := fun h => hc (hp.2 h)
      simp [admits, keydown_singleton, hn, hc, hd]
  · intro hn ht
    simp [admits, keydown_singleton, hn, ht, spaceClass]
  · intro ht h1 h2
    by_cases h3 : field.name = "email"
    · simp [admits, keydown_singleton, ht, h3, spaceClass]
    · simp [admits, keydown_singleton, ht, h1, h2, h3]

/-- C9, at the key `a` in the `full_name`, `email` and tag input fields, the
key `5` in the `full_name` and `phone_number` fields. -/
theorem keydown_admission_witness :
    admits ⟨"tag", true⟩ "," = false
    ∧ admits ⟨"full_name", false⟩ "5" = false
    ∧ admits ⟨"full_name", false⟩ "a" = true
    ∧ admits ⟨"phone_number", false⟩ "5" = true
    ∧ admits ⟨"email", false⟩ "a" = true
    ∧ admits ⟨"tag", true⟩ "a" = true :=
  ⟨(keydown_admission ⟨"tag", true⟩ 'a').1 rfl,
   (keydown_admission ⟨"full_name", false⟩ '5').2.1 rfl (by decide),
   ((keydown_admission ⟨"full_name", false⟩ 'a').2.2.2.1 rfl rfl).2 (Or.inl (by decide)),
   ((keydown_admission ⟨"phone_number", false⟩ '5').2.2.2.2.1 rfl).2 (Or.inl (by decide)),
   ((keydown_admission ⟨"email", false⟩ 'a').2.2.2.2.2.1 rfl rfl).2 (by decide),
   ((keydown_admission ⟨"tag", true⟩ 'a').2.2.2.2.2.2 rfl (by decide) (by decide)).2
      ⟨by decide, by decide⟩⟩

/-! ### Diff-based update -/

theorem insertIndexKey_perm (n : Nat) (k v : String) :
    ∀ o : JsObject, (insertIndexKey n k v o).Perm ((k, v) :: o)
  | [] => List.Perm.refl _
  | e :: es => by
    unfold insertIndexKey
    split
    · split
      · exact ((insertIndexKey_perm n k v es).cons e).trans (List.Perm.swap _ _ _)
      · exact List.Perm.refl _
    · exact List.Perm.refl _

theorem objSet_new (o : JsObject) (k v : String) (hk : k ≠ "__proto__")
    (hnew : k ∉ o.map Prod.fst) : (objSet o k v).Perm (o ++ [(k, v)]) := by
  unfold objSet
  rw [if_neg hk]
  have : o.any (fun e => e.1 == k) = false := by
    rw [Bool.eq_false_iff]
    intro h
    rw [List.any_eq_true] at h
    obtain ⟨e, he, hek⟩ := h
    exact hnew (List.mem_map.2 ⟨e, he, by simpa using hek⟩)
  simp only [this, Bool.false_eq_true, if_false]
  split
  · exact (insertIndexKey_perm _ k v o).trans (List.perm_append_singleton (k, v) o).symm
  · exact List.Perm.refl _

theorem diffLoop_some (prev : Contact) :
    ∀ (fd : FormData) (acc : JsObject),
      (fd.map Prod.fst).Nodup →
      (∀ k ∈ fd.map Prod.fst, k ∉ acc.map Prod.fst) →
      "__proto__" ∉ fd.map Prod.fst →
      ∃ payload, diffLoop (some prev) fd acc = .ok payload
        ∧ payload.Perm (acc ++ fd.filter (fun e => strictNeStr (prev.get e.1) e.2))
  | [], acc, _, _, _ => ⟨acc, by simp [diffLoop], by simp⟩
  | (key, value) :: rest, acc, hnd, hdisj, hproto => by
    simp only [List.map_cons, List.nodup_cons, List.mem_cons, not_or] at hnd hproto
    have hdisj_rest : ∀ k ∈ rest.map Prod.fst, k ∉ acc.map Prod.fst :=
      fun k hk => hdisj k (by simp only [List.map_cons, List.mem_cons]; exact Or.inr hk)
    have hkey : key ∉ acc.map Prod.fst := hdisj key (by simp)
    unfold diffLoop
    by_cases hne : strictNeStr (prev.get key) value = true
    · simp only [hne, if_true]
      have hperm := objSet_new acc key value (fun h => hproto.1 h.symm) hkey
      have hdisj2 : ∀ k ∈ rest.map Prod.fst, k ∉ (objSet acc key value).map Prod.fst := by
        intro k hk hmem
        have := ((hperm.map Prod.fst).mem_iff).1 hmem
        simp only [List.map_append, List.map_cons, List.map_nil, List.mem_append,
          List.mem_singleton] at this
        rcases this with h | h
        · exact hdisj_rest k hk h
        · exact hnd.1 (h ▸ hk)
      obtain ⟨payload, hp, hpp⟩ :=
        diffLoop_some prev rest (objSet acc key value) hnd.2 hdisj2 hproto.2
      refine ⟨payload, hp, hpp.trans ?_⟩
      rw [List.filter_cons, if_pos hne]
      have := hperm.append_right (rest.filter (fun e => strictNeStr (prev.get e.1) e.2))
      simpa using this
    · simp only [hne]
      obtain ⟨payload, hp, hpp⟩ := diffLoop_some prev rest acc hnd.2 hdisj_rest hproto.2
      refine ⟨payload, hp, ?_⟩
      simpa [List.filter_cons, hne] using hpp

theorem formDataReplace_of_nodup (k v : String) :
    ∀ fd : FormData, (fd.map Prod.fst).Nodup →
      formDataReplace k v fd = fd.map (fun e => if e.1 = k then (k, v) else e)
  | [], _ => rfl
  | e :: es, hnd => by
    simp only [List.map_cons, List.nodup_cons] at hnd
    unfold formDataReplace
    by_cases hek : e.1 = k
    · simp only [hek, if_true, List.map_cons]
      have hk : ∀ x ∈ es, x.1 ≠ k := by
        intro x hx hxk
        exact hnd.1 (List.mem_map.2 ⟨x, hx, by rw [hxk, hek]⟩)
      congr 1
      rw [List.filter_eq_self.2 (fun x hx => by simpa using hk x hx)]
      symm
      calc es.map (fun e => if e.1 = k then (k, v) else e)
          = es.map id := List.map_congr_left (fun x hx => by simp [hk x hx])
        _ = es := List.map_id es
    · simp only [hek, if_false, List.map_cons]
      rw [formDataReplace_of_nodup k v es hnd.2]

theorem any_key_iff (fd : FormData) (k : String) :
    fd.any (fun e => e.1 == k) = true ↔ k ∈ fd.map Prod.fst := by
  simp only [List.any_eq_true, List.mem_map, beq_iff_eq]

theorem formDataSet_keys (fd : FormData) (k v : String) (hnd : (fd.map Prod.fst).Nodup) :
    ((formDataSet fd k v).map Prod.fst).Nodup
    ∧ ∀ key, key ∈ (formDataSet fd k v).map Prod.fst ↔ key = k ∨ key ∈ fd.map Prod.fst := by
  unfold formDataSet
  by_cases hany : fd.any (fun e => e.1 == k) = true
  · have hk : k ∈ fd.map Prod.fst := (any_key_iff fd k).1 hany
    have hkeys : (fd.map (fun e => if e.1 = k then (k, v) else e)).map Prod.fst
        = fd.map Prod.fst := by
      rw [List.map_map]
      apply List.map_congr_left
      intro e _
      by_cases h : e.1 = k <;> simp [h]
    rw [if_pos hany, formDataReplace_of_nodup k v fd hnd, hkeys]
    refine ⟨hnd, fun key => ⟨Or.inr, ?_⟩⟩
    rintro (rfl | h)
    · exact hk
    · exact h
  · have hk : k ∉ fd.map Prod.fst := fun h => hany ((any_key_iff fd k).2 h)
    rw [if_neg hany]
    simp only [List.map_append, List.map_cons, List.map_nil, List.mem_append,
      List.mem_singleton]
    refine ⟨?_, fun key => or_comm⟩
    rw [List.nodup_append]
    refine ⟨hnd, List.nodup_singleton k, ?_⟩
    intro x hx hx1
    rw [List.mem_singleton] at hx1
    exact hk (hx1 ▸ hx)

theorem formDataSet_mem (fd : FormData) (k v : String) (hnd : (fd.map Prod.fst).Nodup)
    (k1 v1 : String) :
    (k1, v1) ∈ formDataSet fd k v ↔ (k1 = k ∧ v1 = v) ∨ (k1 ≠ k ∧ (k1, v1) ∈ fd) := by
  unfold formDataSet
  by_cases hany : fd.any (fun e => e.1 == k) = true
  · rw [if_pos hany, formDataReplace_of_nodup k v fd hnd, List.mem_map]
    obtain ⟨e0, he0, hek0⟩ := List.any_eq_true.1 hany
    have hek0 : e0.1 = k := by simpa using hek0
    constructor
    · rintro ⟨e, he, hfe⟩
      by_cases h : e.1 = k
      · rw [if_pos h] at hfe
        left
        exact ⟨(Prod.mk.inj hfe).1.symm, (Prod.mk.inj hfe).2.symm⟩
      · rw [if_neg h] at hfe
        right
        subst hfe
        exact ⟨h, he⟩
    · rintro (⟨rfl, rfl⟩ | ⟨hne, hmem⟩)
      · exact ⟨e0, he0, by rw [if_pos hek0]⟩
      · exact ⟨(k1, v1), hmem, by rw [if_neg hne]⟩
  · have hk : k ∉ fd.map Prod.fst := fun h => hany ((any_key_iff fd k).2 h)
    rw [if_neg hany, List.mem_append, List.mem_singleton, Prod.mk.injEq]
    constructor
    · rintro (h | h)
      · right
        refine ⟨?_, h⟩
        rintro rfl
        exact hk (List.mem_map.2 ⟨(k1, v1), h, rfl⟩)
      · exact Or.inl h
    · rintro (h | h)
      · exact Or.inr h
      · exact Or.inl h.2

theorem processAPIData_tags_str (data : List WireContact) (prev : Contact)
    (hmem : prev ∈ processAPIData data) (s : String) (hs : prev.tags = .str s) : s = "" := by
  obtain ⟨w, _, rfl⟩ := List.mem_map.1 hmem
  rcases w with ⟨id, fn, pn, em, tags⟩
  cases tags with
  | absent => simp [processAPIObject] at hs
  | null => simp [processAPIObject] at hs
  | str t =>
    by_cases ht : t = ""
    · subst ht
      simp [processAPIObject] at hs
      exact hs.symm
    · simp [processAPIObject, ht] at hs

theorem strictNeStr_tags (prev : Contact) (v : String) :
    strictNeStr (prev.get "tags") v = true ↔ prev.tags ≠ .str v := by
  have hget : prev.get "tags" = prev.tags.toJVal := by
    simp [Contact.get]
  rw [hget]
  cases h : prev.tags <;> simp [Tags.toJVal, strictNeStr]

/-- C1 (amended): for a cached record `prev` stored by `processAPIData` and
found under the id of the form action, and submitted entries with pairwise
distinct names none of which is `__proto__`, the payload of
`processPutRequestData` holds exactly the entries (after `processTags`) whose
value differs from `prev[key]`, each once (the order in which the object
lists them aside): a non-tag entry is in it iff it was submitted and differs
from the cached value, the only `tags` entry it can hold is the current tag
string, and that entry is in it unless the cached `tags` is the empty string
and the current tag string is empty too (so always when the cached `tags` is
an array, missing or `null`). -/
theorem processPutRequestData_diff (toNumber : String → Option Int)
    (data : List WireContact) (form : Form) (prev : Contact)
    (hfind : findContact toNumber (processAPIData data) (actionId form.action) = some prev)
    (hnodup : (form.entries.map Prod.fst).Nodup)
    (hproto : "__proto__" ∉ form.entries.map Prod.fst) :
    ∃ payload,
      processPutRequestData toNumber (processAPIData data)
          (processTags form.entries form) form = .ok payload
      ∧ payload.Perm ((processTags form.entries form).filter
          (fun e => strictNeStr (prev.get e.1) e.2))
      ∧ (∀ k v, k ≠ "tags" →
          ((k, v) ∈ payload ↔ ((k, v) ∈ form.entries ∧ strictNeStr (prev.get k) v = true)))
      ∧ (∀ v, ("tags", v) ∈ payload → v = form.dataTags)
      ∧ (("tags", form.dataTags) ∈ payload ↔ ¬ (prev.tags = .str "" ∧ form.dataTags = "")) := by
  have hmem : prev ∈ processAPIData data := List.mem_of_find?_eq_some hfind
  have hkeys := formDataSet_keys form.entries "tags" form.dataTags hnodup
  have hmemfd := formDataSet_mem form.entries "tags" form.dataTags hnodup
  have hnoproto : "__proto__" ∉ (formDataSet form.entries "tags" form.dataTags).map Prod.fst := by
    intro h
    rcases (hkeys.2 _).1 h with h1 | h1
    · exact absurd h1 (by decide)
    · exact hproto h1
  obtain ⟨payload, hp, hperm⟩ :=
    diffLoop_some prev (formDataSet form.entries "tags" form.dataTags) [] hkeys.1 (by simp)
      hnoproto
  rw [List.nil_append] at hperm
  have hin : ∀ k v, (k, v) ∈ payload ↔
      ((k = "tags" ∧ v = form.dataTags) ∨ (k ≠ "tags" ∧ (k, v) ∈ form.entries))
        ∧ strictNeStr (prev.get k) v = true := by
    intro k v
    rw [hperm.mem_iff, List.mem_filter, hmemfd]
  refine ⟨payload, ?_, hperm, ?_, ?_, ?_⟩
  · unfold processPutRequestData processTags
    simp only [hfind]
    exact hp
  · intro k v hk
    rw [hin]
    constructor
    · rintro ⟨h | h, hne⟩
      · exact absurd h.1 hk
      · exact ⟨h.2, hne⟩
    · rintro ⟨h, hne⟩
      exact ⟨Or.inr ⟨hk, h⟩, hne⟩
  · intro v hv
    rcases ((hin _ _).1 hv).1 with h | h
    · exact h.2
    · exact absurd rfl h.1
  · rw [hin, strictNeStr_tags]
    constructor
    · rintro ⟨_, hne⟩ ⟨h1, h2⟩
      exact hne (by rw [h1, h2])
    · intro h
      refine ⟨Or.inl ⟨rfl, rfl⟩, ?_⟩
      intro hs
      have := processAPIData_tags_str data prev hmem _ hs
      exact h ⟨by rw [hs, this], this⟩

/-- The payload lists a property named by an array index before the others:
for the form names `full_name`, `2`, `1` the changed entries are sent as `1`,
`2`, `full_name`, `tags`. -/
theorem processPutRequestData_index_names :
    processPutRequestData numberOfDigits
        (processAPIData [⟨1, "A", "1", "a@x.com", .str "home"⟩])
        (processTags [("full_name", "B"), ("2", "x"), ("1", "y")]
          ⟨"edit_form", "http://localhost:3000/api/contacts/1",
            [("full_name", "B"), ("2", "x"), ("1", "y")], "work"⟩)
        ⟨"edit_form", "http://localhost:3000/api/contacts/1",
          [("full_name", "B"), ("2", "x"), ("1", "y")], "work"⟩
      = .ok [("1", "y"), ("2", "x"), ("full_name", "B"), ("tags", "work")] :=
  rfl

/-- C1 fails as stated: with the cached `tags` the empty string (a contact the
API sent with `tags: ""`) and an empty current tag string, the payload for a
changed email is the email alone, without a `tags` entry. -/
theorem processPutRequestData_omits_empty_tags :
    processPutRequestData numberOfDigits
        (processAPIData [⟨1, "A", "1", "a@x.com", .str ""⟩])
        (processTags [("full_name", "A"), ("email", "b@x.com")]
          ⟨"edit_form", "http://localhost:3000/api/contacts/1",
            [("full_name", "A"), ("email", "b@x.com")], ""⟩)
        ⟨"edit_form", "http://localhost:3000/api/contacts/1",
          [("full_name", "A"), ("email", "b@x.com")], ""⟩
      = .ok [("email", "b@x.com")]
    ∧ ("tags", "") ∉ [(("email", "b@x.com") : String × String)] :=
  ⟨rfl, by decide⟩

/-- C1 (amended), at the cached record with name `A` and email `a@x.com` and
the form with name `A` and email `b@x.com`: the payload is the email and the
current tag string. -/
theorem processPutRequestData_diff_witness :
    (findContact numberOfDigits (processAPIData [⟨1, "A", "1", "a@x.com", .str "work"⟩])
        (actionId "http://localhost:3000/api/contacts/1")
        = some ⟨1, "A", "1", "a@x.com", .arr ["work"]⟩
      ∧ ([("full_name", "A"), ("email", "b@x.com")].map Prod.fst).Nodup
      ∧ "__proto__" ∉ [("full_name", "A"), ("email", "b@x.com")].map Prod.fst)
    ∧ processPutRequestData numberOfDigits
        (processAPIData [⟨1, "A", "1", "a@x.com", .str "work"⟩])
        (processTags [("full_name", "A"), ("email", "b@x.com")]
          ⟨"edit_form", "http://localhost:3000/api/contacts/1",
            [("full_name", "A"), ("email", "b@x.com")], "work,home"⟩)
        ⟨"edit_form", "http://localhost:3000/api/contacts/1",
          [("full_name", "A"), ("email", "b@x.com")], "work,home"⟩
      = .ok [("email", "b@x.com"), ("tags", "work,home")]
    ∧ ∃ payload,
      processPutRequestData numberOfDigits
        (processAPIData [⟨1, "A", "1", "a@x.com", .str "work"⟩])
        (processTags [("full_name", "A"), ("email", "b@x.com")]
          ⟨"edit_form", "http://localhost:3000/api/contacts/1",
            [("full_name", "A"), ("email", "b@x.com")], "work,home"⟩)
        ⟨"edit_form", "http://localhost:3000/api/contacts/1",
          [("full_name", "A"), ("email", "b@x.com")], "work,home"⟩ = .ok payload
      ∧ (("tags", "work,home") ∈ payload ↔
          ¬ ((Tags.arr ["work"]) = .str "" ∧ "work,home" = "")) :=
  ⟨⟨by decide, by decide, by decide⟩, rfl,
   (processPutRequestData_diff numberOfDigits [⟨1, "A", "1", "a@x.com", .str "work"⟩]
      ⟨"edit_form", "http://localhost:3000/api/contacts/1",
        [("full_name", "A"), ("email", "b@x.com")], "work,home"⟩
      ⟨1, "A", "1", "a@x.com", .arr ["work"]⟩ (by decide) (by decide) (by decide)).imp
      (fun _ h => ⟨h.1, h.2.2.2.2⟩)⟩

/-! ### Debounce -/

theorem keyup_init {E : Type} (delay : Nat) (k : Nat × E) :
    keyup delay (Loop.init E) k = burstState delay 1 k.1 k.2 := by
  simp [keyup, advance, debounced, setTimeout, Loop.init, burstState]

theorem keyup_burstState {E : Type} (delay n t : Nat) (e : E) (k : Nat × E)
    (hn : n ≠ 0) (h1 : t ≤ k.1) (h2 : k.1 < t + delay) :
    keyup delay (burstState delay n t e) k = burstState delay (n + 1) k.1 k.2 := by
  have hdue : ¬ (t + delay ≤ k.1) := by omega
  simp [keyup, advance, debounced, setTimeout, clearTimeout, burstState, hdue, hn, h1]

theorem foldl_keyup_burstState {E : Type} (delay : Nat) :
    ∀ (ks : List (Nat × E)) (n t : Nat) (e : E), n ≠ 0 →
      withinWindow delay ((t, e) :: ks) →
      ks.foldl (keyup delay) (burstState delay n t e)
        = burstState delay (n + ks.length)
            (((t, e) :: ks).getLast (List.cons_ne_nil _ _)).1
            (((t, e) :: ks).getLast (List.cons_ne_nil _ _)).2
  | [], n, t, e, _, _ => by simp
  | k :: rest, n, t, e, hn, hw => by
    obtain ⟨⟨h1, h2⟩, hrest⟩ := hw
    rw [List.foldl_cons, keyup_burstState delay n t e k hn h1 h2,
      foldl_keyup_burstState delay rest (n + 1) k.1 k.2 (by omega) hrest]
    have hlen : n + 1 + rest.length = n + (k :: rest).length := by
      simp only [List.length_cons]
      omega
    rw [hlen]
    simp [List.getLast_cons]

theorem runKeyups_burst {E : Type} (delay : Nat) (ks : List (Nat × E)) (hne : ks ≠ [])
    (hw : withinWindow delay ks) :
    runKeyups delay ks
      = burstState delay ks.length (ks.getLast hne).1 (ks.getLast hne).2 := by
  cases ks with
  | nil => exact absurd rfl hne
  | cons k rest =>
    unfold runKeyups
    rw [List.foldl_cons, keyup_init, foldl_keyup_burstState delay rest 1 k.1 k.2 (by omega) hw]
    simp [Nat.add_comm]

theorem withinWindow_of_initial_part {E : Type} (delay : Nat) :
    ∀ (p ks : List (Nat × E)), p <+: ks → withinWindow delay ks → withinWindow delay p
  | [], _, _, _ => trivial
  | [_], _, _, _ => trivial
  | a :: b :: p, ks, hp, hw => by
    obtain ⟨r, rfl⟩ := hp
    obtain ⟨hab, hrest⟩ := hw
    exact ⟨hab, withinWindow_of_initial_part delay (b :: p) (b :: (p ++ r)) ⟨r, rfl⟩ hrest⟩

/-- C10: for a non-empty sequence of `keyup` events, each no earlier than and
less than 300 time units after the one before it, the debounced search
handler is called exactly once, 300 time units after the last event and with
that event as its argument; after every non-empty part of the sequence read
from its start no call has been made and exactly one timer is pending (every
earlier one was cleared), and after the whole sequence that timer carries
the last event. -/
theorem debounce_single_evaluation {E : Type} (ks : List (Nat × E)) (hne : ks ≠ [])
    (hw : withinWindow 300 ks) :
    evaluations 300 ks = [((ks.getLast hne).1 + 300, (ks.getLast hne).2)]
    ∧ (runKeyups 300 ks).timers.map (fun tm => (tm.due, tm.args))
        = [((ks.getLast hne).1 + 300, (ks.getLast hne).2)]
    ∧ ∀ p : List (Nat × E), p <+: ks → p ≠ [] →
        (runKeyups 300 p).calls = [] ∧ (runKeyups 300 p).timers.length = 1 := by
  refine ⟨?_, ?_, ?_⟩
  · unfold evaluations
    rw [runKeyups_burst 300 ks hne hw]
    simp [settle, burstState]
  · rw [runKeyups_burst 300 ks hne hw]
    simp [burstState]
  · intro p hp hpne
    rw [runKeyups_burst 300 p hpne (withinWindow_of_initial_part 300 p ks hp hw)]
    simp [burstState]

/-- C10, at three `keyup` events 50 time units apart: one call, at time 400,
with the third event. -/
theorem debounce_single_evaluation_witness :
    ([(0, "a"), (50, "ab"), (100, "abc")] ≠ ([] : List (Nat × String))
      ∧ withinWindow 300 [(0, "a"), (50, "ab"), (100, "abc")])
    ∧ evaluations 300 [(0, "a"), (50, "ab"), (100, "abc")] = [(400, "abc")] :=
  ⟨⟨by decide, ⟨by decide, by decide⟩, ⟨by decide, by decide⟩, trivial⟩,
   (debounce_single_evaluation [(0, "a"), (50, "ab"), (100, "abc")] (by decide)
      ⟨⟨by decide, by decide⟩, ⟨by decide, by decide⟩, trivial⟩).1⟩

end ContactsManager
